import Mathlib

/-!
Verification of the GROMACS benchmark results parser
(src/scripts/gromacs/parse_gromacs_results.py).

The script is a regex-based log scraper.  We embed it shallowly:

* the Python regular expressions used by the script all have the shape
  "sequence of literal strings, greedy character-class stars, and greedy
  character-class pluses (possibly capturing)", so we model a pattern as a
  list of such tokens and implement the standard leftmost / greedy
  backtracking search that the `re` module performs (`reSearch`);
* Python `float` on a capture of the class [0-9.] succeeds exactly when the
  text has at least one digit and at most one dot; we model numbers as
  rationals (`parseFloat`), returning `none` where Python raises ValueError;
* `parse_gromacs_log` therefore returns `Option GromacsRecord`, where
  `none` models the function raising an exception;
* the collector models a directory as a list of (name, content) pairs where
  a `none` content stands for a file whose read fails (IO/decode error);
  Python `sorted` is embedded as a stable insertion sort;
* the reporter is embedded as a function to a structure recording the rows
  and the printed averages, and `main` as a function from parsed arguments
  and an abstract filesystem to an exit code plus messages.

Unicode caveat: Python character classes \d and \s also accept some
non-ASCII characters; we model the ASCII sets, which is what every pattern
literal and every claim exercises.
-/

namespace Gromacs

/-- A regex token: all patterns in the script are sequences of these.
`lit` is a literal string, `star p` is a greedy `p*` over a character
class, `plus p` a greedy `p+`, and `group p` a greedy capturing `(p+)`. -/
inductive Tok where
  | lit : List Char → Tok
  | star : (Char → Bool) → Tok
  | plus : (Char → Bool) → Tok
  | group : (Char → Bool) → Tok

/-- Try `f n`, then `f (n-1)`, ..., down to `f 0`, returning the first
success: the greedy backtracking order for a starred character class. -/
def firstSome (f : Nat → Option α) : Nat → Option α
  | 0 => f 0
  | n + 1 =>
    match f (n + 1) with
    | some r => some r
    | none => firstSome f n

/-- Length of the maximal run of characters satisfying `p` at the front. -/
def maxRun (p : Char → Bool) : List Char → Nat
  | [] => 0
  | c :: cs => if p c then maxRun p cs + 1 else 0

/-- Anchored match of a token list against a prefix of `cs`, returning the
list of captured groups (in order) on success.  Backtracking follows the
greedy priority order of Python `re`: a starred class tries the longest
run first.  A match need not consume all of `cs`. -/
def matchToks : List Tok → List Char → Option (List (List Char))
  | [], _ => some []
  | Tok.lit s :: ts, cs =>
    if s.isPrefixOf cs then matchToks ts (cs.drop s.length) else none
  | Tok.star p :: ts, cs =>
    firstSome (fun k => matchToks ts (cs.drop k)) (maxRun p cs)
  | Tok.plus p :: ts, cs =>
    firstSome (fun k => if k = 0 then none else matchToks ts (cs.drop k))
      (maxRun p cs)
  | Tok.group p :: ts, cs =>
    firstSome
      (fun k =>
        if k = 0 then none
        else (matchToks ts (cs.drop k)).map (fun gs => cs.take k :: gs))
      (maxRun p cs)

/-- Python `re.search`: try an anchored match at each position, leftmost
first; return the captures of the first position that matches. -/
def reSearch (ts : List Tok) : List Char → Option (List (List Char))
  | [] => matchToks ts []
  | c :: cs =>
    match matchToks ts (c :: cs) with
    | some gs => some gs
    | none => reSearch ts cs

/-- `match.group(1)`: the first captured group of a successful search. -/
def group1 (r : Option (List (List Char))) : Option (List Char) :=
  match r with
  | some (g :: _) => some g
  | _ => none

/-- Python substring test `pat in s`. -/
def containsSub (pat : List Char) : List Char → Bool
  | [] => pat.isPrefixOf ([] : List Char)
  | c :: cs => pat.isPrefixOf (c :: cs) || containsSub pat cs

/-- The ASCII whitespace characters matched by the regex class \s. -/
def isSpaceChar (c : Char) : Bool :=
  c = ' ' || c = '\t' || c = '\n' || c = '\r' || c = '\x0b' || c = '\x0c'

/-- The character class [0-9.] written [\d.] in the script. -/
def isDigitDot (c : Char) : Bool :=
  c.isDigit || c = '.'

/-- The pattern exclusive_numa(\d+). -/
def exclusiveNumaPat : List Tok :=
  [Tok.lit "exclusive_numa".toList, Tok.group Char.isDigit]

/-- The pattern shared_task(\d+). -/
def sharedTaskPat : List Tok :=
  [Tok.lit "shared_task".toList, Tok.group Char.isDigit]

/-- The pattern cpubind:\s*(\d+). -/
def cpubindPat : List Tok :=
  [Tok.lit "cpubind:".toList, Tok.star isSpaceChar, Tok.group Char.isDigit]

/-- The pattern CUDA_VISIBLE_DEVICES:\s*(\d+). -/
def cudaPat : List Tok :=
  [Tok.lit "CUDA_VISIBLE_DEVICES:".toList, Tok.star isSpaceChar,
    Tok.group Char.isDigit]

/-- The primary performance pattern Performance:\s+([\d.]+)\s+ns/day. -/
def perfPat : List Tok :=
  [Tok.lit "Performance:".toList, Tok.plus isSpaceChar, Tok.group isDigitDot,
    Tok.plus isSpaceChar, Tok.lit "ns/day".toList]

/-- The fallback performance pattern ([\d.]+)\s+ns/day. -/
def perfAltPat : List Tok :=
  [Tok.group isDigitDot, Tok.plus isSpaceChar, Tok.lit "ns/day".toList]

/-- The timing pattern Time:\s+([\d.]+)\s+([\d.]+)\s+([\d.]+). -/
def timePat : List Tok :=
  [Tok.lit "Time:".toList, Tok.plus isSpaceChar, Tok.group isDigitDot,
    Tok.plus isSpaceChar, Tok.group isDigitDot, Tok.plus isSpaceChar,
    Tok.group isDigitDot]

/-- The pattern Finished mdrun.*\n.*wall\s+([\d.]+)\s+s.  The `.` class of
Python `re` without DOTALL matches any character except the newline; the
MULTILINE flag passed in the script only changes the meaning of the
anchors ^ and $, which the pattern does not contain. -/
def finishedPat : List Tok :=
  [Tok.lit "Finished mdrun".toList, Tok.star (fun c => c ≠ '\n'),
    Tok.lit ['\n'], Tok.star (fun c => c ≠ '\n'), Tok.lit "wall".toList,
    Tok.plus isSpaceChar, Tok.group isDigitDot, Tok.plus isSpaceChar,
    Tok.lit ['s']]

/-- Python `int` on a nonempty digit string. -/
def parseIntDigits (s : List Char) : Nat :=
  s.foldl (fun n c => 10 * n + (c.toNat - 48)) 0

/-- Python `float` on a capture of the class [0-9.], modelled over ℚ.
It succeeds exactly on texts made of digits and dots that contain at
least one digit and at most one dot; `none` models a ValueError. -/
def parseFloat (s : List Char) : Option ℚ :=
  if s.isEmpty then none
  else if !s.all isDigitDot then none
  else if s.count '.' = 0 then some (parseIntDigits s)
  else if s.count '.' = 1 then
    let a := s.takeWhile (fun c => c ≠ '.')
    let b := (s.dropWhile (fun c => c ≠ '.')).drop 1
    if a.isEmpty && b.isEmpty then none
    else some ((parseIntDigits a : ℚ) + (parseIntDigits b : ℚ) / 10 ^ b.length)
  else none

/-- The record built by `parse_gromacs_log`, one per input file.  `type`
is the category string, 'exclusive' or 'shared'. -/
structure GromacsRecord where
  file : String
  type : String
  numa_node : Option Nat
  task_id : Option Nat
  gpu_id : Option Nat
  performance_ns_day : Option ℚ
  wall_time_s : Option ℚ
  core_time_s : Option ℚ
deriving DecidableEq, Repr

/-- The performance block of `parse_gromacs_log`: primary pattern, then
the fallback pattern when the primary found nothing.  The outer `none`
models `float` raising on a matched but malformed capture. -/
def perfStep (cs : List Char) : Option (Option ℚ) :=
  match group1 (reSearch perfPat cs) with
  | some g => (parseFloat g).map some
  | none =>
    match group1 (reSearch perfAltPat cs) with
    | some g => (parseFloat g).map some
    | none => some none

/-- The timing block of `parse_gromacs_log`: on a match of the
three-number pattern, wall time is the second capture and core time the
first; the third capture is never converted.  Returns (wall, core); the
outer `none` models `float` raising. -/
def timeStep (cs : List Char) : Option (Option ℚ × Option ℚ) :=
  match reSearch timePat cs with
  | some (g1 :: g2 :: _ :: _) => do
    let w ← parseFloat g2
    let c ← parseFloat g1
    some (some w, some c)
  | some _ => some (none, none)
  | none => some (none, none)

/-- The Finished-mdrun block of `parse_gromacs_log`: when the pattern
matches, its capture overwrites the wall time. -/
def wallOverrideStep (cs : List Char) (w : Option ℚ) : Option (Option ℚ) :=
  match group1 (reSearch finishedPat cs) with
  | some g => (parseFloat g).map some
  | none => some w

/-- Embedding of `parse_gromacs_log`, as a function of the file name and
the file content.  `none` models the Python function raising (which only
`float` on a malformed capture can cause). -/
def parse_gromacs_log (filename content : String) : Option GromacsRecord := do
  let fn := filename.toList
  let cs := content.toList
  let typ := if containsSub "exclusive".toList fn then "exclusive" else "shared"
  let numaFromName : Option Nat :=
    if containsSub "exclusive".toList fn then
      (group1 (reSearch exclusiveNumaPat fn)).map parseIntDigits
    else none
  let taskFromName : Option Nat :=
    if containsSub "exclusive".toList fn then none
    else (group1 (reSearch sharedTaskPat fn)).map parseIntDigits
  let numa : Option Nat :=
    match group1 (reSearch cpubindPat cs) with
    | some d => some (parseIntDigits d)
    | none => numaFromName
  let gpu : Option Nat := (group1 (reSearch cudaPat cs)).map parseIntDigits
  let perf ← perfStep cs
  let wc ← timeStep cs
  let wall ← wallOverrideStep cs wc.1
  some
    { file := filename
      type := typ
      numa_node := numa
      task_id := taskFromName
      gpu_id := gpu
      performance_ns_day := perf
      wall_time_s := wall
      core_time_s := wc.2 }

/-- All float conversions that `parse_gromacs_log` performs on the given
content succeed: every matched capture that the code passes to `float`
has at least one digit and at most one dot.  The third capture of the
timing pattern is exempt, since the code never converts it, and the
fallback performance capture only counts when the primary pattern found
nothing, since the code only then reaches it. -/
def floatCapturesOk (cs : List Char) : Bool :=
  (match group1 (reSearch perfPat cs) with
    | some g => (parseFloat g).isSome
    | none =>
      match group1 (reSearch perfAltPat cs) with
      | some g => (parseFloat g).isSome
      | none => true) &&
  (match reSearch timePat cs with
    | some (g1 :: g2 :: _ :: _) => (parseFloat g1).isSome && (parseFloat g2).isSome
    | _ => true) &&
  (match group1 (reSearch finishedPat cs) with
    | some g => (parseFloat g).isSome
    | none => true)

/-- A file of the data directory as the collector sees it: its name and
its text content, where `none` models a file whose read raises (an IO or
a decoding error). -/
structure LogFile where
  name : String
  content : Option String
deriving DecidableEq, Repr

/-- Lexicographic smaller-or-equal on character lists, by code point:
the comparison Python `sorted` applies to the paths of one directory. -/
def listLexLe : List Char → List Char → Bool
  | [], _ => true
  | _ :: _, [] => false
  | c :: cs, d :: ds =>
    if c < d then true else if d < c then false else listLexLe cs ds

/-- The comparison used by Python `sorted` on the paths of one directory:
lexicographic order of the file names. -/
def fileLe (a b : LogFile) : Bool :=
  listLexLe a.name.toList b.name.toList

/-- Insert into a sorted list, after strictly smaller elements and before
equal ones, as a stable sort does. -/
def insertLe (le : α → α → Bool) (a : α) : List α → List α
  | [] => [a]
  | b :: l => if le a b then a :: b :: l else b :: insertLe le a l

/-- Stable insertion sort, the embedding of Python `sorted`. -/
def isort (le : α → α → Bool) : List α → List α
  | [] => []
  | a :: l => insertLe le a (isort le l)

/-- Matching of a name against a glob of the shape PREFIX*SUFFIX, the only
shape the script uses. -/
def globPS (pre suf name : List Char) : Bool :=
  pre.isPrefixOf name && suf.isSuffixOf (name.drop pre.length)

/-- Whether a file name matches the glob `pre ++ "*" ++ suf`. -/
def matchesPattern (pre suf : String) (f : LogFile) : Bool :=
  globPS pre.toList suf.toList f.name.toList

/-- The files selected by one glob pattern, in sorted name order:
`sorted(data_dir.glob(pattern))`. -/
def patternFiles (pre suf : String) (files : List LogFile) : List LogFile :=
  isort fileLe (files.filter (matchesPattern pre suf))

/-- Reading one file and parsing it: `none` when the read raises or when
`parse_gromacs_log` raises, in which case the collector skips the file. -/
def readAndParse (f : LogFile) : Option GromacsRecord :=
  f.content.bind (fun c => parse_gromacs_log f.name c)

/-- Embedding of `parse_all_results`: the two patterns are processed in
order, each file list sorted, and a file whose read or parse fails is
skipped (the script prints a diagnostic and continues). -/
def parse_all_results (files : List LogFile) : List GromacsRecord :=
  (patternFiles "exclusive_numa" ".log" files).filterMap readAndParse ++
    (patternFiles "shared_task" ".log" files).filterMap readAndParse

/-- Python truthiness of an optional float: `None` and `0.0` are falsy.
The summary uses it both to select the averaged values and to render. -/
def truthyQ : Option ℚ → Bool
  | none => false
  | some x => decide (x ≠ 0)

/-- The sort key `x[key] or 0` of the summary tables: `None` (and `0`)
become `0`. -/
def keyOrZero : Option Nat → Nat
  | none => 0
  | some n => n

/-- One printed section of the summary: the rows in table order and the
average line value (`none` when the line is omitted). -/
structure SummarySection where
  rows : List GromacsRecord
  average : Option ℚ
deriving DecidableEq, Repr

/-- The observable output of `print_summary`. -/
structure Summary where
  noResults : Bool
  exclusiveSec : Option SummarySection
  sharedSec : Option SummarySection
deriving DecidableEq, Repr

/-- One category block of `print_summary`: emitted only when the subset is
nonempty; rows sorted by the category key (missing key sorts as 0); the
average is over the subset values that are truthy (non-None and nonzero),
and its line is omitted when no value is truthy. -/
def sectionFor (keyOf : GromacsRecord → Option Nat) (rs : List GromacsRecord) :
    Option SummarySection :=
  if rs.isEmpty then none
  else
    let rows := isort (fun a b => decide (keyOrZero (keyOf a) ≤ keyOrZero (keyOf b))) rs
    let perfs := rs.filterMap
      (fun r => if truthyQ r.performance_ns_day then r.performance_ns_day else none)
    some
      { rows := rows
        average :=
          if perfs.isEmpty then none
          else some (perfs.sum / (perfs.length : ℚ)) }

/-- Embedding of `print_summary`. -/
def print_summary (results : List GromacsRecord) : Summary :=
  if results.isEmpty then
    { noResults := true, exclusiveSec := none, sharedSec := none }
  else
    { noResults := false
      exclusiveSec :=
        sectionFor (fun r => r.numa_node)
          (results.filter (fun r => r.type == "exclusive"))
      sharedSec :=
        sectionFor (fun r => r.task_id)
          (results.filter (fun r => r.type == "shared")) }

/-- One invocation of the entry point: the command line together with
the abstract filesystem state `main` consults.  `parse_ok` is whether
argparse accepts the command line (on a usage error argparse prints a
message and exits the process with status 2 before the script body
runs); `output_writable` is whether writing the requested output path
would succeed (the script does not catch the OSError of `write_text`,
so a failed write propagates and the interpreter exits with status 1). -/
structure CliArgs where
  data_dir : String
  data_dir_exists : Bool
  dirFiles : List LogFile
  output : Option String
  quiet : Bool
  parse_ok : Bool
  output_writable : Bool

/-- The observable outcome of one run of the entry point: the process
exit status, the diagnostic messages of the missing-directory path, the
collected records, the summary when printed, and the path written. -/
structure MainResult where
  exit_code : Nat
  messages : List String
  results : List GromacsRecord
  summary : Option Summary
  wrote : Option String

/-- Embedding of one invocation of the entry point.  A command line
argparse rejects never reaches the script body: argparse exits the
process with status 2.  Within the body, a missing data directory is
reported through two messages and the function returns normally (exit
status 0), and a requested output write that fails raises an OSError
the script does not catch, so the interpreter exits with status 1;
every other invocation ends with the normal exit status 0. -/
def main (args : CliArgs) : MainResult :=
  if !args.parse_ok then
    { exit_code := 2, messages := [], results := [], summary := none,
      wrote := none }
  else if !args.data_dir_exists then
    { exit_code := 0
      messages :=
        ["Data directory not found: " ++ args.data_dir,
          "Run the GROMACS benchmarks first to generate results."]
      results := []
      summary := none
      wrote := none }
  else
    let results := parse_all_results args.dirFiles
    let summary := if args.quiet then none else some (print_summary results)
    match args.output with
    | none =>
      { exit_code := 0, messages := [], results := results, summary := summary,
        wrote := none }
    | some path =>
      if args.output_writable then
        { exit_code := 0, messages := [], results := results, summary := summary,
          wrote := some path }
      else
        { exit_code := 1, messages := [], results := results, summary := summary,
          wrote := none }

/-- Modelled from the spec and claim wording for C5: the arithmetic mean
of performance_metric over exactly the records with a non-null value,
omitted when none has one.  Compared against the code-side average. -/
def meanNonNull (rs : List GromacsRecord) : Option ℚ :=
  let ps := rs.filterMap (fun r => r.performance_ns_day)
  if ps.isEmpty then none else some (ps.sum / (ps.length : ℚ))

/-- The mean the code actually prints, stated from the spec side of the
amended claim: over records whose performance value is non-null and
nonzero (Python truthiness), omitted when there is no such record. -/
def meanTruthy (rs : List GromacsRecord) : Option ℚ :=
  let ps := rs.filterMap
    (fun r => if truthyQ r.performance_ns_day then r.performance_ns_day else none)
  if ps.isEmpty then none else some (ps.sum / (ps.length : ℚ))

/-- A sample exclusive record whose performance value is 0.0: non-null
but falsy in Python. -/
def zeroPerfRecord : GromacsRecord :=
  { file := "exclusive_numa0.log", type := "exclusive", numa_node := some 0,
    task_id := none, gpu_id := none, performance_ns_day := some 0,
    wall_time_s := none, core_time_s := none }

/-- A sample exclusive record with performance value 2.0. -/
def twoPerfRecord : GromacsRecord :=
  { file := "exclusive_numa1.log", type := "exclusive", numa_node := some 1,
    task_id := none, gpu_id := none, performance_ns_day := some 2,
    wall_time_s := none, core_time_s := none }

end Gromacs

namespace Gromacs

attribute [local semireducible] Rat.add Rat.mul Rat.inv

/-- The shape of any successful run of `parse_gromacs_log`: the three
fallible steps succeed and the record is built from the pattern searches. -/
theorem parse_eq_dest (fn content : String) (r : GromacsRecord)
    (h : parse_gromacs_log fn content = some r) :
    ∃ p wc w, perfStep content.toList = some p ∧
      timeStep content.toList = some wc ∧
      wallOverrideStep content.toList wc.1 = some w ∧
      r = { file := fn
            type := if containsSub "exclusive".toList fn.toList then "exclusive" else "shared"
            numa_node :=
              match group1 (reSearch cpubindPat content.toList) with
              | some d => some (parseIntDigits d)
              | none =>
                if containsSub "exclusive".toList fn.toList then
                  (group1 (reSearch exclusiveNumaPat fn.toList)).map parseIntDigits
                else none
            task_id :=
              if containsSub "exclusive".toList fn.toList then none
              else (group1 (reSearch sharedTaskPat fn.toList)).map parseIntDigits
            gpu_id := (group1 (reSearch cudaPat content.toList)).map parseIntDigits
            performance_ns_day := p
            wall_time_s := w
            core_time_s := wc.2 } := by
  simp only [parse_gromacs_log, bind, Option.bind_eq_some, Option.some.injEq] at h
  obtain ⟨p, hp, wc, hwc, w, hw, hr⟩ := h
  exact ⟨p, wc, w, hp, hwc, hw, hr.symm⟩

/-- A successful parse keeps the file name in the record. -/
theorem parse_file_name {fn content : String} {r : GromacsRecord}
    (h : parse_gromacs_log fn content = some r) : r.file = fn := by
  obtain ⟨p, wc, w, _, _, _, hr⟩ := parse_eq_dest fn content r h
  rw [hr]

/-- When the primary performance pattern matched, the performance step
converts its capture. -/
theorem perfStep_primary {cs : List Char} {g : List Char}
    (hg : group1 (reSearch perfPat cs) = some g) :
    perfStep cs = (parseFloat g).map some := by
  simp only [perfStep, hg]

/-- When only the fallback performance pattern matched, the performance
step converts its capture. -/
theorem perfStep_fallback {cs : List Char} {g : List Char}
    (h0 : group1 (reSearch perfPat cs) = none)
    (hg : group1 (reSearch perfAltPat cs) = some g) :
    perfStep cs = (parseFloat g).map some := by
  simp only [perfStep, h0, hg]

/-- A successful parse whose performance step is pinned to a capture `g`
yields the parsed value of `g`. -/
theorem perf_field_of_step {fn content : String} {r : GromacsRecord} {g : List Char}
    (h : parse_gromacs_log fn content = some r)
    (hstep : perfStep content.toList = (parseFloat g).map some) :
    r.performance_ns_day = parseFloat g := by
  obtain ⟨p, wc, w, hp, _, _, hr⟩ := parse_eq_dest fn content r h
  rw [hstep] at hp
  cases hpf : parseFloat g with
  | none => rw [hpf, Option.map_none'] at hp; exact absurd hp (by simp)
  | some q =>
    rw [hpf, Option.map_some'] at hp
    rw [hr, Option.some_inj.mp hp]

/-- C1: if the primary pattern "Performance: number ns/day" matches, the
extracted performance_metric is the captured number; if the primary
pattern is absent but the fallback "number ns/day" matches anywhere, the
performance_metric is the first such number; in particular the content
"Performance:    12.345    ns/day" yields 12.345 and, with the primary
pattern absent, "7.5 ns/day" yields 7.5. -/
theorem performance_extraction :
    (∀ fn content : String, ∀ r : GromacsRecord, ∀ g : List Char,
        parse_gromacs_log fn content = some r →
        group1 (reSearch perfPat content.toList) = some g →
        r.performance_ns_day = parseFloat g) ∧
    (∀ fn content : String, ∀ r : GromacsRecord, ∀ g : List Char,
        parse_gromacs_log fn content = some r →
        group1 (reSearch perfPat content.toList) = none →
        group1 (reSearch perfAltPat content.toList) = some g →
        r.performance_ns_day = parseFloat g) ∧
    (parse_gromacs_log "bench.log" "Performance:    12.345    ns/day").map
        GromacsRecord.performance_ns_day = some (some ((12345 : ℚ) / 1000)) ∧
    (parse_gromacs_log "bench.log" "step 1000 total\n7.5 ns/day measured").map
        GromacsRecord.performance_ns_day = some (some ((75 : ℚ) / 10)) := by
  refine ⟨?_, ?_, by decide, by decide⟩
  · intro fn content r g h hg
    exact perf_field_of_step h (perfStep_primary hg)
  · intro fn content r g h h0 hg
    exact perf_field_of_step h (perfStep_fallback h0 hg)

/-- Witness for C1 at a concrete input. -/
theorem performance_extraction_witness :
    ((parse_gromacs_log "w.log" "Performance: 2.5 ns/day").get (by decide)).performance_ns_day
      = parseFloat "2.5".toList :=
  performance_extraction.1 "w.log" "Performance: 2.5 ns/day" _ "2.5".toList
    (Option.some_get (by decide)).symm (by decide)

/-- The timing step on a match of the three-number pattern. -/
theorem timeStep_match {cs g1 g2 g3 : List Char} {rest : List (List Char)}
    (h : reSearch timePat cs = some (g1 :: g2 :: g3 :: rest)) :
    timeStep cs =
      (parseFloat g2).bind (fun w => (parseFloat g1).bind
        (fun c => some (some w, some c))) := by
  simp only [timeStep, h, bind, Option.bind]

/-- The timing step when the three-number pattern has no match. -/
theorem timeStep_no_match {cs : List Char} (h : reSearch timePat cs = none) :
    timeStep cs = some (none, none) := by
  simp only [timeStep, h]

/-- The override step on a match of the Finished-mdrun pattern. -/
theorem wallOverrideStep_match {cs g : List Char} {w : Option ℚ}
    (h : group1 (reSearch finishedPat cs) = some g) :
    wallOverrideStep cs w = (parseFloat g).map some := by
  simp only [wallOverrideStep, h]

/-- The override step when the Finished-mdrun pattern has no match. -/
theorem wallOverrideStep_no_match {cs : List Char} {w : Option ℚ}
    (h : group1 (reSearch finishedPat cs) = none) :
    wallOverrideStep cs w = some w := by
  simp only [wallOverrideStep, h]

/-- C2: when both the three-number timing pattern and the Finished/wall
pattern match, core_time_s is the first capture of the timing line and
wall_time_s is the capture of the wall line, which overrides the timing
line value; on the spec example the final values are wall 25.0 and
core 10.0. -/
theorem timing_and_wall_override :
    (∀ fn content : String, ∀ r : GromacsRecord, ∀ g1 g2 g3 gw : List Char,
      ∀ rest : List (List Char),
        parse_gromacs_log fn content = some r →
        reSearch timePat content.toList = some (g1 :: g2 :: g3 :: rest) →
        group1 (reSearch finishedPat content.toList) = some gw →
        r.core_time_s = parseFloat g1 ∧ r.wall_time_s = parseFloat gw) ∧
    (parse_gromacs_log "run.log"
        "Time:  10.0  20.0  5.0\nFinished mdrun on rank 0\n   core 40.0 wall 25.0 s\n").map
        (fun r => (r.wall_time_s, r.core_time_s)) =
      some (some (25 : ℚ), some (10 : ℚ)) := by
  refine ⟨?_, by decide⟩
  intro fn content r g1 g2 g3 gw rest h ht hf
  obtain ⟨p, wc, w, hp, hwc, hw, hr⟩ := parse_eq_dest fn content r h
  rw [timeStep_match ht] at hwc
  cases h2 : parseFloat g2 with
  | none => rw [h2] at hwc; exact absurd hwc (by simp)
  | some qw =>
    cases h1 : parseFloat g1 with
    | none => rw [h2, h1] at hwc; exact absurd hwc (by simp)
    | some qc =>
      rw [h2, h1] at hwc
      simp only [Option.some_bind, Option.some_inj] at hwc
      rw [wallOverrideStep_match hf] at hw
      cases hgw : parseFloat gw with
      | none => rw [hgw, Option.map_none'] at hw; exact absurd hw (by simp)
      | some qv =>
        rw [hgw, Option.map_some', Option.some_inj] at hw
        constructor
        · rw [hr]; show wc.2 = some qc; rw [← hwc]
        · rw [hr]; show w = some qv; rw [← hw]

/-- Witness for C2 at a concrete input. -/
theorem timing_and_wall_override_witness :
    ((parse_gromacs_log "run2.log"
        "Time:  1.5  2.5  3.5\nFinished mdrun at x\n wall 9.5 s").get
        (by decide)).core_time_s = parseFloat "1.5".toList ∧
    ((parse_gromacs_log "run2.log"
        "Time:  1.5  2.5  3.5\nFinished mdrun at x\n wall 9.5 s").get
        (by decide)).wall_time_s = parseFloat "9.5".toList :=
  timing_and_wall_override.1 "run2.log"
    "Time:  1.5  2.5  3.5\nFinished mdrun at x\n wall 9.5 s" _
    "1.5".toList "2.5".toList "3.5".toList "9.5".toList []
    (Option.some_get (by decide)).symm (by decide) (by decide)

/-- C10: the timing-line extraction is all-or-nothing.  When the
three-number pattern has no match, core_time_s is left unset, and when
additionally the Finished/wall pattern has no match, wall_time_s is also
left unset; a Time: line followed by only two numbers sets neither. -/
theorem timing_all_or_nothing :
    (∀ fn content : String, ∀ r : GromacsRecord,
        parse_gromacs_log fn content = some r →
        reSearch timePat content.toList = none →
        r.core_time_s = none ∧
          (group1 (reSearch finishedPat content.toList) = none →
            r.wall_time_s = none)) ∧
    (parse_gromacs_log "run.log" "Time:  10.0  20.0").map
        (fun r => (r.wall_time_s, r.core_time_s)) = some (none, none) := by
  refine ⟨?_, by decide⟩
  intro fn content r h hnone
  obtain ⟨p, wc, w, hp, hwc, hw, hr⟩ := parse_eq_dest fn content r h
  rw [timeStep_no_match hnone, Option.some_inj] at hwc
  constructor
  · rw [hr]; show wc.2 = none; rw [← hwc]
  · intro hf
    rw [wallOverrideStep_no_match hf, Option.some_inj] at hw
    rw [hr]; show w = none; rw [← hw, ← hwc]

/-- Witness for C10 at a concrete input. -/
theorem timing_all_or_nothing_witness :
    ((parse_gromacs_log "run3.log" "Time:  7.0  8.0").get (by decide)).core_time_s = none ∧
    ((parse_gromacs_log "run3.log" "Time:  7.0  8.0").get (by decide)).wall_time_s = none := by
  have h := timing_all_or_nothing.1 "run3.log" "Time:  7.0  8.0" _
    (Option.some_get (by decide)).symm (by decide)
  exact ⟨h.1, h.2 (by decide)⟩

/-- C4: the category is exclusive exactly when the filename contains the
substring "exclusive", else shared; for an exclusive filename matching
exclusive_numa digits, numa_node is those digits (absent a cpubind
content override); for a shared filename matching shared_task digits,
task_id is those digits; concretely exclusive_numa3.log gives
(exclusive, numa 3) and shared_task12.log gives (shared, task 12). -/
theorem category_and_ids :
    (∀ fn content : String, ∀ r : GromacsRecord,
        parse_gromacs_log fn content = some r →
        r.type = if containsSub "exclusive".toList fn.toList then "exclusive"
          else "shared") ∧
    (∀ fn content : String, ∀ r : GromacsRecord, ∀ d : List Char,
        parse_gromacs_log fn content = some r →
        containsSub "exclusive".toList fn.toList = true →
        group1 (reSearch exclusiveNumaPat fn.toList) = some d →
        group1 (reSearch cpubindPat content.toList) = none →
        r.numa_node = some (parseIntDigits d)) ∧
    (∀ fn content : String, ∀ r : GromacsRecord, ∀ d : List Char,
        parse_gromacs_log fn content = some r →
        containsSub "exclusive".toList fn.toList = false →
        group1 (reSearch sharedTaskPat fn.toList) = some d →
        r.task_id = some (parseIntDigits d)) ∧
    (parse_gromacs_log "exclusive_numa3.log" "").map
        (fun r => (r.type, r.numa_node)) = some ("exclusive", some 3) ∧
    (parse_gromacs_log "shared_task12.log" "").map
        (fun r => (r.type, r.task_id)) = some ("shared", some 12) := by
  refine ⟨?_, ?_, ?_, by decide, by decide⟩
  · intro fn content r h
    obtain ⟨p, wc, w, _, _, _, hr⟩ := parse_eq_dest fn content r h
    rw [hr]
  · intro fn content r d h hex hd hcb
    obtain ⟨p, wc, w, _, _, _, hr⟩ := parse_eq_dest fn content r h
    rw [hr]
    show (match group1 (reSearch cpubindPat content.toList) with
      | some d => some (parseIntDigits d)
      | none =>
        if containsSub "exclusive".toList fn.toList then
          (group1 (reSearch exclusiveNumaPat fn.toList)).map parseIntDigits
        else none) = some (parseIntDigits d)
    rw [hcb]
    simp only [hex, if_true, hd, Option.map_some']
  · intro fn content r d h hex hd
    obtain ⟨p, wc, w, _, _, _, hr⟩ := parse_eq_dest fn content r h
    rw [hr]
    show (if containsSub "exclusive".toList fn.toList then none
      else (group1 (reSearch sharedTaskPat fn.toList)).map parseIntDigits) =
        some (parseIntDigits d)
    simp only [hex, Bool.false_eq_true, if_false, hd, Option.map_some']

/-- Witness for C4 at concrete inputs. -/
theorem category_and_ids_witness :
    ((parse_gromacs_log "exclusive_numa3.log" "").get (by decide)).type = "exclusive" ∧
    ((parse_gromacs_log "exclusive_numa3.log" "").get (by decide)).numa_node =
      some (parseIntDigits "3".toList) ∧
    ((parse_gromacs_log "shared_task12.log" "").get (by decide)).task_id =
      some (parseIntDigits "12".toList) := by
  refine ⟨?_, ?_, ?_⟩
  · have h := category_and_ids.1 "exclusive_numa3.log" "" _
      (Option.some_get (by decide)).symm
    rw [h]; decide
  · exact category_and_ids.2.1 "exclusive_numa3.log" "" _ "3".toList
      (Option.some_get (by decide)).symm (by decide) (by decide) (by decide)
  · exact category_and_ids.2.2.1 "shared_task12.log" "" _ "12".toList
      (Option.some_get (by decide)).symm (by decide) (by decide)

/-- C9: for a shared-category file whose name matches shared_task digits
and whose content matches cpubind: digits, the record has both task_id
(from the filename) and numa_node (from the content) populated at once;
the content-derived numa_node is not restricted to exclusive records. -/
theorem shared_task_and_numa_coexist :
    (∀ fn content : String, ∀ r : GromacsRecord, ∀ d n : List Char,
        parse_gromacs_log fn content = some r →
        containsSub "exclusive".toList fn.toList = false →
        group1 (reSearch sharedTaskPat fn.toList) = some d →
        group1 (reSearch cpubindPat content.toList) = some n →
        r.task_id = some (parseIntDigits d) ∧
          r.numa_node = some (parseIntDigits n)) ∧
    (parse_gromacs_log "shared_task5.log" "cpubind: 2").map
        (fun r => (r.task_id, r.numa_node)) = some (some 5, some 2) := by
  refine ⟨?_, by decide⟩
  intro fn content r d n h hex hd hn
  obtain ⟨p, wc, w, _, _, _, hr⟩ := parse_eq_dest fn content r h
  constructor
  · rw [hr]
    show (if containsSub "exclusive".toList fn.toList then none
      else (group1 (reSearch sharedTaskPat fn.toList)).map parseIntDigits) =
        some (parseIntDigits d)
    simp only [hex, Bool.false_eq_true, if_false, hd, Option.map_some']
  · rw [hr]
    show (match group1 (reSearch cpubindPat content.toList) with
      | some d => some (parseIntDigits d)
      | none =>
        if containsSub "exclusive".toList fn.toList then
          (group1 (reSearch exclusiveNumaPat fn.toList)).map parseIntDigits
        else none) = some (parseIntDigits n)
    rw [hn]

/-- Witness for C9 at a concrete input. -/
theorem shared_task_and_numa_coexist_witness :
    ((parse_gromacs_log "shared_task5.log" "cpubind: 2").get (by decide)).task_id =
      some (parseIntDigits "5".toList) ∧
    ((parse_gromacs_log "shared_task5.log" "cpubind: 2").get (by decide)).numa_node =
      some (parseIntDigits "2".toList) :=
  shared_task_and_numa_coexist.1 "shared_task5.log" "cpubind: 2" _
    "5".toList "2".toList (Option.some_get (by decide)).symm (by decide)
    (by decide) (by decide)

/-- C3 counterexample: on this content the primary performance pattern
matches with the capture ".", and float(".") raises ValueError, so the
extraction raises instead of returning a record. -/
theorem extract_raises_on_dot_capture :
    parse_gromacs_log "run.log" "Performance: . ns/day" = none ∧
    group1 (reSearch perfPat "Performance: . ns/day".toList) = some ".".toList := by
  decide

/-- C3 amended: extraction can only raise through the float conversion of
a matched capture; whenever every matched capture that the code converts
is a well-formed float, extraction returns a record. -/
theorem extract_total_on_good_captures :
    ∀ fn content : String, floatCapturesOk content.toList = true →
      (parse_gromacs_log fn content).isSome = true := by
  intro fn content hok
  simp only [floatCapturesOk, Bool.and_eq_true] at hok
  obtain ⟨⟨hperf, htime⟩, hfin⟩ := hok
  have hp : (perfStep content.toList).isSome = true := by
    unfold perfStep
    cases h1 : group1 (reSearch perfPat content.toList) with
    | some g => rw [h1] at hperf; simpa using hperf
    | none =>
      rw [h1] at hperf
      cases h2 : group1 (reSearch perfAltPat content.toList) with
      | some g => rw [h2] at hperf; simpa using hperf
      | none => simp
  have ht : (timeStep content.toList).isSome = true := by
    unfold timeStep
    cases h1 : reSearch timePat content.toList with
    | none => simp
    | some gs =>
      rw [h1] at htime
      rcases gs with _ | ⟨g1, _ | ⟨g2, _ | ⟨g3, rest⟩⟩⟩
      · simp
      · simp
      · simp
      · simp only [Bool.and_eq_true] at htime
        obtain ⟨ha, hb⟩ := htime
        obtain ⟨qa, hqa⟩ := Option.isSome_iff_exists.mp ha
        obtain ⟨qb, hqb⟩ := Option.isSome_iff_exists.mp hb
        simp [hqa, hqb, bind]
  obtain ⟨p, hp'⟩ := Option.isSome_iff_exists.mp hp
  obtain ⟨wc, hwc⟩ := Option.isSome_iff_exists.mp ht
  have hw : (wallOverrideStep content.toList wc.1).isSome = true := by
    unfold wallOverrideStep
    cases h1 : group1 (reSearch finishedPat content.toList) with
    | some g => rw [h1] at hfin; simpa using hfin
    | none => simp
  obtain ⟨w, hww⟩ := Option.isSome_iff_exists.mp hw
  simp only [parse_gromacs_log, bind, hp', hwc, hww, Option.some_bind,
    Option.isSome_some]

/-- Witness for the amended C3 at a concrete input on which every
pattern matches. -/
theorem extract_total_on_good_captures_witness :
    (parse_gromacs_log "w2.log"
      "Performance: 3.5 ns/day\nTime: 1.0 2.0 3.0\nFinished mdrun\n wall 4.0 s").isSome
      = true :=
  extract_total_on_good_captures "w2.log"
    "Performance: 3.5 ns/day\nTime: 1.0 2.0 3.0\nFinished mdrun\n wall 4.0 s"
    (by decide)

/-- The average of an emitted summary section is the truthy mean of the
subset it was built from. -/
theorem sectionFor_average (keyOf : GromacsRecord → Option Nat)
    (rs : List GromacsRecord) (sec : SummarySection)
    (h : sectionFor keyOf rs = some sec) : sec.average = meanTruthy rs := by
  rw [sectionFor] at h
  cases hsub : rs.isEmpty with
  | true => rw [hsub] at h; simp at h
  | false =>
    rw [hsub] at h
    simp only [Bool.false_eq_true, if_false, Option.some_inj] at h
    rw [← h, meanTruthy]

/-- C5 counterexample: with one exclusive record of performance 0.0 and
one of performance 2.0, both non-null, the printed average is 2, not
their arithmetic mean 1: the code selects values by Python truthiness
and so drops the 0.0 value from the average. -/
theorem summary_average_skips_zero :
    (print_summary [zeroPerfRecord, twoPerfRecord]).exclusiveSec.map
        SummarySection.average = some (some 2) ∧
    meanNonNull [zeroPerfRecord, twoPerfRecord] = some 1 ∧
    (print_summary [zeroPerfRecord, twoPerfRecord]).exclusiveSec.map
        SummarySection.average ≠
      some (meanNonNull [zeroPerfRecord, twoPerfRecord]) := by
  decide

/-- C5 amended: the average printed after each non-empty category table
is the arithmetic mean of performance_metric over the records of that
subset whose value is non-null and nonzero (Python truthiness), and the
average line is omitted when the subset has no such record. -/
theorem summary_average_is_truthy_mean :
    ∀ results : List GromacsRecord,
      (∀ sec : SummarySection, (print_summary results).exclusiveSec = some sec →
        sec.average =
          meanTruthy (results.filter (fun r => r.type == "exclusive"))) ∧
      (∀ sec : SummarySection, (print_summary results).sharedSec = some sec →
        sec.average =
          meanTruthy (results.filter (fun r => r.type == "shared"))) := by
  intro results
  constructor
  · intro sec hsec
    cases hres : results.isEmpty with
    | true => simp [print_summary, hres] at hsec
    | false =>
      refine sectionFor_average (fun r => r.numa_node) _ sec ?_
      simpa [print_summary, hres] using hsec
  · intro sec hsec
    cases hres : results.isEmpty with
    | true => simp [print_summary, hres] at hsec
    | false =>
      refine sectionFor_average (fun r => r.task_id) _ sec ?_
      simpa [print_summary, hres] using hsec

/-- Witness for the amended C5 at a concrete input. -/
theorem summary_average_is_truthy_mean_witness :
    ({ rows := [twoPerfRecord], average := some 2 } : SummarySection).average =
      meanTruthy ([twoPerfRecord].filter (fun r => r.type == "exclusive")) :=
  (summary_average_is_truthy_mean [twoPerfRecord]).1
    { rows := [twoPerfRecord], average := some 2 } (by decide)

/-- Membership in an insertion is membership in the inserted element or
the original list. -/
theorem mem_insertLe {le : α → α → Bool} {a b : α} :
    ∀ {l : List α}, b ∈ insertLe le a l ↔ b = a ∨ b ∈ l := by
  intro l
  induction l with
  | nil => simp [insertLe]
  | cons c l ih =>
    cases h : le a c with
    | true => simp [insertLe, h]
    | false =>
      simp only [insertLe, h, Bool.false_eq_true, if_false, List.mem_cons, ih]
      tauto

/-- The insertion sort is a permutation as far as membership goes. -/
theorem mem_isort {le : α → α → Bool} {b : α} :
    ∀ {l : List α}, b ∈ isort le l ↔ b ∈ l := by
  intro l
  induction l with
  | nil => simp [isort]
  | cons a l ih => simp [isort, mem_insertLe, ih]

/-- Inserting into a list that is sorted for a transitive total comparison
keeps it sorted. -/
theorem pairwise_insertLe {le : α → α → Bool}
    (htrans : ∀ a b c, le a b = true → le b c = true → le a c = true)
    (htot : ∀ a b, le a b = true ∨ le b a = true) (a : α) :
    ∀ {l : List α}, l.Pairwise (fun x y => le x y = true) →
      (insertLe le a l).Pairwise (fun x y => le x y = true) := by
  intro l
  induction l with
  | nil => intro _; simp [insertLe]
  | cons b l ih =>
    intro hp
    rw [List.pairwise_cons] at hp
    obtain ⟨hb, hl⟩ := hp
    cases h : le a b with
    | true =>
      simp only [insertLe, h, if_true]
      rw [List.pairwise_cons]
      refine ⟨?_, List.pairwise_cons.mpr ⟨hb, hl⟩⟩
      intro x hx
      rcases List.mem_cons.mp hx with rfl | hx
      · exact h
      · exact htrans a b x h (hb x hx)
    | false =>
      simp only [insertLe, h, Bool.false_eq_true, if_false]
      rw [List.pairwise_cons]
      refine ⟨?_, ih hl⟩
      intro x hx
      rcases mem_insertLe.mp hx with hxa | hx
      · rw [hxa]
        rcases htot a b with hab | hba
        · exact absurd hab (by simp [h])
        · exact hba
      · exact hb x hx

/-- The insertion sort sorts, for a transitive total comparison. -/
theorem pairwise_isort {le : α → α → Bool}
    (htrans : ∀ a b c, le a b = true → le b c = true → le a c = true)
    (htot : ∀ a b, le a b = true ∨ le b a = true) :
    ∀ l : List α, (isort le l).Pairwise (fun x y => le x y = true) := by
  intro l
  induction l with
  | nil => simp [isort]
  | cons a l ih =>
    simp only [isort]
    exact pairwise_insertLe htrans htot a ih

/-- Inserting an element before equal ones and filtering commute on a
sorted list. -/
theorem filter_insertLe {le : α → α → Bool}
    (htrans : ∀ a b c, le a b = true → le b c = true → le a c = true)
    (a : α) (p : α → Bool) :
    ∀ {l : List α}, l.Pairwise (fun x y => le x y = true) →
      (insertLe le a l).filter p =
        if p a then insertLe le a (l.filter p) else l.filter p := by
  intro l
  induction l with
  | nil =>
    intro _
    cases hpa : p a <;> simp [insertLe, List.filter_cons, hpa]
  | cons b l ih =>
    intro hp
    rw [List.pairwise_cons] at hp
    obtain ⟨hb, hl⟩ := hp
    cases hab : le a b with
    | true =>
      simp only [insertLe, hab, if_true]
      cases hpa : p a with
      | true =>
        have hhead : ∀ x ∈ ((b :: l).filter p).head?, le a x = true := by
          intro x hx
          have hxm : x ∈ (b :: l).filter p := List.mem_of_mem_head? hx
          have hx2 := List.mem_filter.mp hxm
          rcases List.mem_cons.mp hx2.1 with rfl | hxl
          · exact hab
          · exact htrans a b x hab (hb x hxl)
        have hcons : insertLe le a ((b :: l).filter p) = a :: (b :: l).filter p := by
          cases hfp : (b :: l).filter p with
          | nil => rfl
          | cons c m =>
            have hc : le a c = true := by
              refine hhead c ?_
              rw [hfp]
              rfl
            simp only [insertLe, hc, if_true]
        rw [List.filter_cons_of_pos hpa, if_pos rfl, hcons]
      | false =>
        rw [List.filter_cons_of_neg (by simp [hpa])]
        simp
    | false =>
      simp only [insertLe, hab, Bool.false_eq_true, if_false]
      rw [List.filter_cons]
      cases hpa : p a <;> cases hpb : p b <;>
        simp [List.filter_cons, hpa, hpb, ih hl, insertLe, hab]

/-- Sorting and filtering commute for a transitive total comparison. -/
theorem isort_filter {le : α → α → Bool}
    (htrans : ∀ a b c, le a b = true → le b c = true → le a c = true)
    (htot : ∀ a b, le a b = true ∨ le b a = true) (p : α → Bool) :
    ∀ l : List α, isort le (l.filter p) = (isort le l).filter p := by
  intro l
  induction l with
  | nil => rfl
  | cons a l ih =>
    rw [List.filter_cons]
    cases hpa : p a with
    | true =>
      rw [if_pos rfl]
      simp only [isort]
      rw [ih, filter_insertLe htrans a p (pairwise_isort htrans htot l), hpa,
        if_pos rfl]
    | false =>
      rw [if_neg (by simp)]
      simp only [isort]
      rw [ih, filter_insertLe htrans a p (pairwise_isort htrans htot l), hpa]
      simp

/-- Filtering away exactly the elements a partial map drops does not
change the mapped list. -/
theorem filterMap_filter_isSome (g : α → Option β) :
    ∀ l : List α, (l.filter (fun a => (g a).isSome)).filterMap g = l.filterMap g := by
  intro l
  induction l with
  | nil => rfl
  | cons a l ih =>
    rw [List.filter_cons]
    cases hga : g a with
    | none => simp [hga, ih]
    | some b => simp [hga, ih]

/-- The lexicographic Boolean comparison agrees with the lexicographic
order on character lists: the scan returns true exactly when the second
list is not strictly smaller. -/
theorem listLexLe_iff_not_lex :
    ∀ a b : List Char, listLexLe a b = true ↔ ¬ List.Lex (fun c d => c < d) b a := by
  intro a
  induction a with
  | nil =>
    intro b
    refine ⟨fun _ h => ?_, fun _ => rfl⟩
    cases h
  | cons c cs ih =>
    intro b
    cases b with
    | nil =>
      refine ⟨fun h => (nomatch h), fun h => absurd List.Lex.nil h⟩
    | cons d ds =>
      by_cases h1 : c < d
      · simp only [listLexLe, if_pos h1, true_iff]
        intro hlt
        cases hlt with
        | cons htl => exact absurd h1 (lt_irrefl _)
        | rel hr => exact lt_asymm h1 hr
      · by_cases h2 : d < c
        · simp only [listLexLe, if_neg h1, if_pos h2, Bool.false_eq_true,
            false_iff, not_not]
          exact List.Lex.rel h2
        · have hcd : c = d := le_antisymm (not_lt.mp h2) (not_lt.mp h1)
          subst hcd
          simp only [listLexLe, if_neg h1, if_neg h2]
          rw [ih ds]
          constructor
          · intro hnot hlt
            cases hlt with
            | cons htl => exact hnot htl
            | rel hr => exact absurd hr (lt_irrefl _)
          · intro hnot hlt
            exact hnot (List.Lex.cons hlt)

/-- The file comparison agrees with the string order of the names. -/
theorem fileLe_iff {a b : LogFile} : fileLe a b = true ↔ a.name ≤ b.name := by
  rw [fileLe, listLexLe_iff_not_lex, String.le_iff_toList_le, ← not_lt]
  exact Iff.rfl

/-- The file comparison is transitive. -/
theorem fileLe_trans :
    ∀ a b c : LogFile, fileLe a b = true → fileLe b c = true → fileLe a c = true := by
  intro a b c hab hbc
  exact fileLe_iff.mpr (le_trans (fileLe_iff.mp hab) (fileLe_iff.mp hbc))

/-- The file comparison is total. -/
theorem fileLe_total : ∀ a b : LogFile, fileLe a b = true ∨ fileLe b a = true := by
  intro a b
  rcases le_total a.name b.name with h | h
  · exact Or.inl (fileLe_iff.mpr h)
  · exact Or.inr (fileLe_iff.mpr h)

/-- A successful read-and-parse keeps the file name in the record. -/
theorem readAndParse_file {f : LogFile} {r : GromacsRecord}
    (h : readAndParse f = some r) : r.file = f.name := by
  rw [readAndParse] at h
  cases hc : f.content with
  | none => rw [hc] at h; exact absurd h (by simp)
  | some c =>
    rw [hc, Option.some_bind] at h
    exact parse_file_name h

/-- C6: a file whose read or parse fails contributes nothing, and its
presence does not change what the other files contribute: the collector
behaves exactly as if failing files were absent, and over a directory
with one good and one corrupt file it returns exactly the record of the
good file. -/
theorem collector_skips_failing_files :
    (∀ files : List LogFile,
        parse_all_results files =
          parse_all_results (files.filter (fun f => (readAndParse f).isSome))) ∧
    parse_all_results
        [{ name := "exclusive_numa0.log", content := some "Performance: 1.5 ns/day" },
         { name := "exclusive_numa1.log", content := none }] =
      [{ file := "exclusive_numa0.log", type := "exclusive", numa_node := some 0,
         task_id := none, gpu_id := none, performance_ns_day := some ((15 : ℚ) / 10),
         wall_time_s := none, core_time_s := none }] := by
  refine ⟨?_, by decide⟩
  intro files
  have key : ∀ pre suf : String,
      (patternFiles pre suf (files.filter (fun f => (readAndParse f).isSome))).filterMap
          readAndParse =
        (patternFiles pre suf files).filterMap readAndParse := by
    intro pre suf
    rw [patternFiles, patternFiles, List.filter_filter]
    have hcomm : (fun a => matchesPattern pre suf a && (readAndParse a).isSome) =
        (fun a => (readAndParse a).isSome && matchesPattern pre suf a) := by
      funext a
      exact Bool.and_comm _ _
    rw [hcomm, ← List.filter_filter,
      isort_filter fileLe_trans fileLe_total _ (files.filter (matchesPattern pre suf)),
      filterMap_filter_isSome]
  rw [parse_all_results, parse_all_results, key, key]

/-- C7: the collector's output is ordered pattern by pattern: first the
records of files matching exclusive_numa*.log, in sorted filename order,
then the records of files matching shared_task*.log, also in sorted
filename order. -/
theorem collector_output_ordered :
    ∀ files : List LogFile, ∃ ex sh : List GromacsRecord,
      parse_all_results files = ex ++ sh ∧
      (∀ r ∈ ex, globPS "exclusive_numa".toList ".log".toList r.file.toList = true) ∧
      (∀ r ∈ sh, globPS "shared_task".toList ".log".toList r.file.toList = true) ∧
      ex.Pairwise (fun r s => r.file ≤ s.file) ∧
      sh.Pairwise (fun r s => r.file ≤ s.file) := by
  intro files
  have memlemma : ∀ pre suf : String,
      ∀ r ∈ (patternFiles pre suf files).filterMap readAndParse,
        globPS pre.toList suf.toList r.file.toList = true := by
    intro pre suf r hr
    obtain ⟨f, hf, hgf⟩ := List.mem_filterMap.mp hr
    have hfm : f ∈ files.filter (matchesPattern pre suf) := mem_isort.mp hf
    have hmatch := (List.mem_filter.mp hfm).2
    rw [readAndParse_file hgf]
    exact hmatch
  have pwlemma : ∀ pre suf : String,
      ((patternFiles pre suf files).filterMap readAndParse).Pairwise
        (fun r s => r.file ≤ s.file) := by
    intro pre suf
    have hsorted : (patternFiles pre suf files).Pairwise
        (fun x y => fileLe x y = true) :=
      pairwise_isort fileLe_trans fileLe_total _
    refine List.pairwise_filterMap.mpr (hsorted.imp ?_)
    intro a b hab x hx y hy
    rw [readAndParse_file (Option.mem_def.mp hx),
      readAndParse_file (Option.mem_def.mp hy)]
    exact fileLe_iff.mp hab
  exact ⟨_, _, rfl, memlemma "exclusive_numa" ".log", memlemma "shared_task" ".log",
    pwlemma "exclusive_numa" ".log", pwlemma "shared_task" ".log"⟩

/-- Witness for C7 at a concrete directory. -/
theorem collector_output_ordered_witness :
    ∃ ex sh : List GromacsRecord,
      parse_all_results
          [{ name := "shared_task1.log", content := some "" },
           { name := "exclusive_numa0.log", content := some "" }] = ex ++ sh ∧
      (∀ r ∈ ex, globPS "exclusive_numa".toList ".log".toList r.file.toList = true) ∧
      (∀ r ∈ sh, globPS "shared_task".toList ".log".toList r.file.toList = true) ∧
      ex.Pairwise (fun r s => r.file ≤ s.file) ∧
      sh.Pairwise (fun r s => r.file ≤ s.file) :=
  collector_output_ordered
    [{ name := "shared_task1.log", content := some "" },
     { name := "exclusive_numa0.log", content := some "" }]

/-- C8 counterexample: the process does not always exit with status 0:
an invocation whose command line argparse rejects exits with status 2,
and an invocation whose requested output path cannot be written raises
an unhandled OSError and exits with status 1. -/
theorem main_nonzero_exit_paths :
    (main
        { data_dir := "d", data_dir_exists := true, dirFiles := [],
          output := none, quiet := false, parse_ok := false,
          output_writable := true }).exit_code = 2 ∧
    (main
        { data_dir := "d", data_dir_exists := true, dirFiles := [],
          output := some "results.json", quiet := true, parse_ok := true,
          output_writable := false }).exit_code = 1 := by
  decide

/-- C8 amended: the entry point exits with status 0 for every invocation
that argparse accepts and whose requested output write (if any)
succeeds — in particular a missing data directory is reported through
printed messages, an empty result and a normal zero exit; the only
nonzero exits are the library error paths: a rejected command line
exits 2 and a failed output write exits 1. -/
theorem main_exit_codes :
    ∀ args : CliArgs,
      (args.parse_ok = true →
        (args.output = none ∨ args.output_writable = true) →
        (main args).exit_code = 0 ∧
          (args.data_dir_exists = false →
            (main args).results = [] ∧
            (main args).messages =
              ["Data directory not found: " ++ args.data_dir,
                "Run the GROMACS benchmarks first to generate results."])) ∧
      (args.parse_ok = false → (main args).exit_code = 2) ∧
      (args.parse_ok = true → args.data_dir_exists = true →
        args.output_writable = false → (∃ p, args.output = some p) →
        (main args).exit_code = 1) := by
  intro args
  refine ⟨?_, ?_, ?_⟩
  · intro hok hw
    cases hdir : args.data_dir_exists with
    | false => simp [main, hok, hdir]
    | true =>
      rcases hw with hw | hw
      · simp [main, hok, hdir, hw]
      · cases hout : args.output with
        | none => simp [main, hok, hdir, hout]
        | some path => simp [main, hok, hdir, hout, hw]
  · intro hbad
    simp [main, hbad]
  · intro hok hdir hw ⟨p, hp⟩
    simp [main, hok, hdir, hw, hp]

/-- Witness for the amended C8, exercising all three exit paths at
concrete invocations. -/
theorem main_exit_codes_witness :
    (main
        { data_dir := "data/gromacs", data_dir_exists := false, dirFiles := [],
          output := none, quiet := false, parse_ok := true,
          output_writable := true }).exit_code = 0 ∧
    (main
        { data_dir := "data/gromacs", data_dir_exists := false, dirFiles := [],
          output := none, quiet := false, parse_ok := true,
          output_writable := true }).messages =
      ["Data directory not found: " ++ "data/gromacs",
        "Run the GROMACS benchmarks first to generate results."] ∧
    (main
        { data_dir := "d2", data_dir_exists := true, dirFiles := [],
          output := none, quiet := true, parse_ok := false,
          output_writable := true }).exit_code = 2 ∧
    (main
        { data_dir := "d3", data_dir_exists := true, dirFiles := [],
          output := some "out.json", quiet := true, parse_ok := true,
          output_writable := false }).exit_code = 1 := by
  have h0 := (main_exit_codes
    { data_dir := "data/gromacs", data_dir_exists := false, dirFiles := [],
      output := none, quiet := false, parse_ok := true,
      output_writable := true }).1 rfl (Or.inl rfl)
  have h2 := (main_exit_codes
    { data_dir := "d2", data_dir_exists := true, dirFiles := [],
      output := none, quiet := true, parse_ok := false,
      output_writable := true }).2.1 rfl
  have h1 := (main_exit_codes
    { data_dir := "d3", data_dir_exists := true, dirFiles := [],
      output := some "out.json", quiet := true, parse_ok := true,
      output_writable := false }).2.2 rfl rfl rfl ⟨"out.json", rfl⟩
  exact ⟨h0.1, (h0.2 rfl).2, h2, h1⟩

end Gromacs
